import Mathlib

/-!
Verification of the ingress-bfe synchronization core against its
natural-language specification.  The Go source is shallowly embedded:
pure functions become Lean functions, handler bodies become functions
from inputs to an updated state plus a trace of observable actions,
and Go pointers that may be nil become `Option`.  A nil-pointer
dereference (a Go panic) is modelled as `Option.none` in the result.
-/

namespace IngressBfe

/-! ## Event Queue (internal/queue/queue.go) -/

/-- `Element` is an item in the queue (queue.go). `Key` is kept abstract
as a `String` identity; `Timestamp` is the Unix-nano logical clock. -/
structure Element where
  key : String
  timestamp : Int
  isSkippable : Bool
deriving DecidableEq, Repr

/-- Mutable queue state relevant to the worker: `lastSync` is "the Unix
epoch time of the last execution of sync" (queue.go line 38). -/
structure QueueState where
  lastSync : Int
deriving DecidableEq, Repr

/-- Result of one invocation of the sync callback. -/
inductive SyncResult where
  | ok
  | fail
deriving DecidableEq, Repr

/-- One iteration of `Queue.worker` for a dequeued element (queue.go
lines 57-77).  `ts` is `time.Now().UnixNano()` captured right after the
dequeue; `tsRequeue` is the `time.Now().UnixNano()` taken inside the
failure branch; `r` is the outcome of the sync callback.  Returns the
new state, the list of sync invocations made, and the list of elements
re-added through the rate limiter. -/
def workerStep (st : QueueState) (item : Element) (ts tsRequeue : Int)
    (r : SyncResult) : QueueState × List Element × List Element :=
  if st.lastSync > item.timestamp then
    -- skip: Forget + Done, sync not invoked
    (st, [], [])
  else
    match r with
    | .fail => (st, [item], [{ key := item.key, timestamp := tsRequeue, isSkippable := false }])
    | .ok => ({ st with lastSync := ts }, [item], [])

/-- `Queue.enqueue` timestamp assignment (queue.go lines 116-120):
skippable tasks get `now`, non-skippable tasks get `now + 24h`. -/
def enqueueTimestamp (now : Int) (skippable : Bool) : Int :=
  if skippable then now else now + 24 * 60 * 60 * 1000000000

/-- `Queue.isClosed` (queue.go lines 81-88): a `select` whose closed
case returns `true` and whose `default` case falls through to a final
`return true`. -/
def isClosed (chClosed : Bool) : Bool :=
  if chClosed then true else true

/-- The quit branch of `Queue.worker` (queue.go lines 51-55): when the
underlying work queue reports shutdown, close `workerDone` unless
`isClosed` says it already is.  Returns the new closed-state of the
`workerDone` channel. -/
def workerOnQuit (workerDoneClosed : Bool) : Bool :=
  if ¬ isClosed workerDoneClosed then true else workerDoneClosed

/-- `Queue.Shutdown` (queue.go lines 139-142) blocks on
`<-t.workerDone`; the receive unblocks exactly when the channel has
been closed. -/
def shutdownUnblocks (workerDoneClosed : Bool) : Bool :=
  workerDoneClosed

/-! ## Reference Index (`ObjectRefMap`)

The `ObjectRefMap` implementation is referenced from
internal/store/store.go (`NewObjectRefMap`, `Insert`, `Delete`,
`Reference`, `ReferencedBy`) but its source file is not part of the
provided tree.  It is modelled from the spec. -/

/-- Modelled from the spec: the `ObjectRefMap` implementation is
missing from the source tree; §3 and §4.1 define it as a forward map
`owner → {targetKey}` with a derived inverse `target → {ownerKey}`,
where `Insert(owner, targets)` fully replaces the owner's prior target
set, `Delete(owner)` removes the owner and all its forward/inverse
entries, and absent keys yield empty sets. -/
structure ObjectRefMap where
  forward : String → List String
  inverse : String → List String

/-- Modelled from the spec: the empty reference index. -/
def NewObjectRefMap : ObjectRefMap :=
  ⟨fun _ => [], fun _ => []⟩

/-- Modelled from the spec: `Delete(owner)` removes the owner and all
its forward and inverse entries. -/
def ObjectRefMap.Delete (m : ObjectRefMap) (owner : String) : ObjectRefMap :=
  ⟨fun o => if o = owner then [] else m.forward o,
   fun t => (m.inverse t).filter (fun o => o != owner)⟩

/-- Modelled from the spec: `Insert(owner, targets)` fully replaces the
owner's prior target set and keeps the inverse the exact transpose. -/
def ObjectRefMap.Insert (m : ObjectRefMap) (owner : String)
    (targets : List String) : ObjectRefMap :=
  ⟨fun o => if o = owner then targets else (m.Delete owner).forward o,
   fun t => if t ∈ targets then owner :: (m.Delete owner).inverse t
            else (m.Delete owner).inverse t⟩

/-- Modelled from the spec: `Reference(target) → {owner}`. -/
def ObjectRefMap.Reference (m : ObjectRefMap) (target : String) : List String :=
  m.inverse target

/-- Modelled from the spec: `ReferencedBy(owner) → {target}`. -/
def ObjectRefMap.ReferencedBy (m : ObjectRefMap) (owner : String) : List String :=
  m.forward owner

/-- The spec invariant: the inverse map is exactly the transpose of the
forward map. -/
def ObjectRefMap.Transposed (m : ObjectRefMap) : Prop :=
  ∀ o t, t ∈ m.forward o ↔ o ∈ m.inverse t

theorem transposed_new : NewObjectRefMap.Transposed := by
  intro o t
  simp [NewObjectRefMap]

theorem mem_inverse_delete {m : ObjectRefMap} {owner o t : String} :
    o ∈ (m.Delete owner).inverse t ↔ o ∈ m.inverse t ∧ o ≠ owner := by
  simp [ObjectRefMap.Delete, List.mem_filter, bne_iff_ne]

theorem transposed_delete {m : ObjectRefMap} (h : m.Transposed)
    (owner : String) : (m.Delete owner).Transposed := by
  intro o t
  rw [mem_inverse_delete]
  by_cases ho : o = owner
  · subst ho
    simp [ObjectRefMap.Delete]
  · simpa [ObjectRefMap.Delete, ho] using h o t

theorem insert_forward_eq (m : ObjectRefMap) (owner : String)
    (targets : List String) (o : String) :
    (m.Insert owner targets).forward o =
      if o = owner then targets else m.forward o := by
  by_cases ho : o = owner
  · simp [ObjectRefMap.Insert, ho]
  · simp [ObjectRefMap.Insert, ObjectRefMap.Delete, ho]

theorem mem_reference_insert {m : ObjectRefMap} {owner o t : String}
    {targets : List String} :
    o ∈ (m.Insert owner targets).Reference t ↔
      (o = owner ∧ t ∈ targets) ∨ (o ∈ m.Reference t ∧ o ≠ owner) := by
  show o ∈ (if t ∈ targets then owner :: (m.Delete owner).inverse t
            else (m.Delete owner).inverse t) ↔ _
  by_cases ht : t ∈ targets
  · rw [if_pos ht, List.mem_cons, mem_inverse_delete]
    constructor
    · rintro (rfl | ⟨hm, hne⟩)
      · exact Or.inl ⟨rfl, ht⟩
      · exact Or.inr ⟨hm, hne⟩
    · rintro (⟨rfl, _⟩ | ⟨hm, hne⟩)
      · exact Or.inl rfl
      · exact Or.inr ⟨hm, hne⟩
  · rw [if_neg ht, mem_inverse_delete]
    constructor
    · exact fun h => Or.inr h
    · rintro (⟨rfl, hc⟩ | h)
      · exact absurd hc ht
      · exact h

theorem transposed_insert {m : ObjectRefMap} (h : m.Transposed)
    (owner : String) (targets : List String) :
    (m.Insert owner targets).Transposed := by
  intro o t
  rw [show (m.Insert owner targets).inverse t =
        (m.Insert owner targets).Reference t from rfl,
      mem_reference_insert, insert_forward_eq]
  by_cases ho : o = owner
  · simp [ho]
  · rw [if_neg ho, h o t, ObjectRefMap.Reference]
    simp [ho]

theorem not_mem_reference_delete {m : ObjectRefMap} (owner t : String) :
    owner ∉ (m.Delete owner).Reference t := by
  rw [ObjectRefMap.Reference, mem_inverse_delete]
  simp

/-! ## Ingress objects and the class-membership predicate
(src/internal/store: ingress handler file) -/

/-- One entry of `Ingress.Spec.TLS` (only the field the embedded code
reads). -/
structure IngressTLS where
  secretName : String
deriving DecidableEq, Repr

/-- The slice of a `networking.Ingress` object that the embedded code
reads.  `annotations` is the object's annotation map as an association
list; `specIngressClassName` models the `*string` field
`Spec.IngressClassName` (`none` = nil pointer). -/
structure Ingress where
  namespacee : String
  name : String
  annotations : List (String × String)
  specTLS : List IngressTLS
  specIngressClassName : Option String
deriving DecidableEq, Repr

/-- Go map lookup `ing.GetAnnotations()[k]`: `some v` when present. -/
def Ingress.getAnnot (ing : Ingress) (k : String) : Option String :=
  (ing.annotations.find? (fun p => p.1 == k)).map (fun p => p.2)

/-- `cache.DeletionHandlingMetaNamespaceKeyFunc`: the `namespace/name`
key of an object. -/
def Ingress.key (ing : Ingress) : String :=
  ing.namespacee ++ "/" ++ ing.name

/-- `IngressKey` annotation name (ingress handler file). -/
def IngressKey : String := "kubernetes.io/ingress.class"

/-- The controller-wide class configuration: the package-level variables
`IngressClassName`, `DefaultClassName`, `IsIngressV1Ready` and
`IngressClass` read by `IsValid`, passed explicitly.  `ingressClass`
models the `*networking.IngressClass` pointer by its `Name` (`none` =
nil). -/
structure ClassConfig where
  ingressClassName : String
  defaultClassName : String
  isIngressV1Ready : Bool
  ingressClass : Option String
deriving DecidableEq, Repr

/-- The package defaults: `DefaultClassName = "bfe"`,
`IngressClassName = "bfe"`, `IsIngressV1Ready` false (Go zero value),
`IngressClass` nil. -/
def defaultClassConfig : ClassConfig :=
  { ingressClassName := "bfe"
    defaultClassName := "bfe"
    isIngressV1Ready := false
    ingressClass := none }

/-- `IsValid` (ingress handler file, lines 183-207).  Returns `none`
when the Go code dereferences the nil pointer `ing.Spec.IngressClassName`
(a runtime panic): that happens in case 4, reached when the object has
no class annotation, `IsIngressV1Ready` is true and `IngressClass` is
non-nil. -/
def IsValid (cfg : ClassConfig) (ing : Ingress) : Option Bool :=
  -- 1. with annotation
  match Ingress.getAnnot ing IngressKey with
  | some a =>
    if a = "" ∧ cfg.ingressClassName = cfg.defaultClassName then
      some true
    else
      some (decide (a = cfg.ingressClassName))
  | none =>
    -- 2. k8s < v1.18: check default annotation
    if ¬ cfg.isIngressV1Ready then
      some (decide (cfg.ingressClassName = cfg.defaultClassName))
    else
      -- 3. without annotation and IngressClass
      match cfg.ingressClass with
      | none => some (decide (cfg.ingressClassName = cfg.defaultClassName))
      -- 4. with IngressClass: dereferences *ing.Spec.IngressClassName
      | some clsName =>
        match ing.specIngressClassName with
        | none => none
        | some specName => some (decide (clsName = specName))

/-! ## Secret references of a route
(`K8sStore.updateSecretIngressMap`, store.go lines 326-345) -/

/-- The declared secret-target keys of an ingress: one `namespace/name`
key per TLS entry with a non-empty `SecretName` (store.go lines
334-342). -/
def declaredSecrets (ing : Ingress) : List String :=
  ing.specTLS.filterMap (fun tls =>
    if tls.secretName = "" then none
    else some (ing.namespacee ++ "/" ++ tls.secretName))

/-- `K8sStore.updateSecretIngressMap` (store.go lines 326-345): delete
all existing references of the route, then insert its declared secret
references. -/
def updateSecretIngressMap (m : ObjectRefMap) (ing : Ingress) : ObjectRefMap :=
  (m.Delete ing.key).Insert ing.key (declaredSecrets ing)

/-! ## Ingress resource event handler
(`IngressResourceEventHandler`, ingress handler file) -/

/-- `EventType` (store.go lines 120-129). -/
inductive EventType where
  | create
  | update
  | delete
  | configuration
deriving DecidableEq, Repr

/-- Observable actions of a handler invocation, in program order:
`audit r` is `recorder.Eventf(..., r, ...)`, `syncSecret k` is one
`syncSecret` call made by `K8sStore.syncSecrets`, `emit e` is a send of
an `Event{Type: e}` on the update channel. -/
inductive HandlerAction where
  | audit (reason : String)
  | syncSecret (key : String)
  | emit (e : EventType)
deriving DecidableEq, Repr

/-- `K8sStore.syncSecrets` (store.go lines 353-361): one `syncSecret`
call per key in `secretIngressMap.ReferencedBy(ingKey)`. -/
def syncSecretsActions (m : ObjectRefMap) (ing : Ingress) : List HandlerAction :=
  (m.ReferencedBy ing.key).map HandlerAction.syncSecret

/-- `IngressResourceEventHandler.OnAdd` (ingress handler file, lines
43-59).  Result `none` models a panic inside `IsValid`. -/
def ingressOnAdd (cfg : ClassConfig) (m : ObjectRefMap) (ing : Ingress) :
    Option (ObjectRefMap × List HandlerAction) :=
  match IsValid cfg ing with
  | none => none
  | some false => some (m, [])
  | some true =>
    let m2 := updateSecretIngressMap m ing
    some (m2, [HandlerAction.audit "CREATE"] ++ syncSecretsActions m2 ing
              ++ [HandlerAction.emit EventType.create])

/-- `IngressResourceEventHandler.OnDelete` (ingress handler file, lines
62-94) for an object already known to be an Ingress. -/
def ingressOnDelete (cfg : ClassConfig) (m : ObjectRefMap) (ing : Ingress) :
    Option (ObjectRefMap × List HandlerAction) :=
  match IsValid cfg ing with
  | none => none
  | some false => some (m, [])
  | some true =>
    some (m.Delete ing.key,
          [HandlerAction.audit "DELETE", HandlerAction.emit EventType.delete])

/-- `IngressResourceEventHandler.OnUpdate` (ingress handler file, lines
97-124).  `reflect.DeepEqual(old, cur)` is modelled by equality of the
embedded objects.  Result `none` models a panic inside `IsValid`. -/
def ingressOnUpdate (cfg : ClassConfig) (m : ObjectRefMap)
    (old cur : Ingress) : Option (ObjectRefMap × List HandlerAction) :=
  match IsValid cfg old, IsValid cfg cur with
  | some validOld, some validCur =>
    if ¬ validOld ∧ validCur then
      -- treated as creation: audit CREATE, then fall through
      let m2 := updateSecretIngressMap m cur
      some (m2, [HandlerAction.audit "CREATE"] ++ syncSecretsActions m2 cur
                ++ [HandlerAction.emit EventType.update])
    else if validOld ∧ ¬ validCur then
      ingressOnDelete cfg m old
    else if validCur ∧ ¬ (old = cur) then
      let m2 := updateSecretIngressMap m cur
      some (m2, [HandlerAction.audit "UPDATE"] ++ syncSecretsActions m2 cur
                ++ [HandlerAction.emit EventType.update])
    else
      some (m, [])
  | _, _ => none

/-! ## Watch Store informer wiring (`NewStore`, store.go lines 197-274) -/

/-- The five upstream resource collections an informer can be built
from. -/
inductive Collection where
  | ingresses
  | endpoints
  | services
  | secrets
  | configmaps
deriving DecidableEq, Repr

/-- Which collection each of the five informers of `NewStore` watches. -/
structure InformerWiring where
  ingress : Collection
  endpoint : Collection
  service : Collection
  secret : Collection
  configMap : Collection
deriving DecidableEq, Repr

/-- The wiring built by `NewStore` (store.go lines 241-271).  The
service informer is built from
`informerFactory.Core().V1().Secrets().Informer()` (line 261). -/
def newStoreWiring : InformerWiring :=
  { ingress := Collection.ingresses
    endpoint := Collection.endpoints
    service := Collection.secrets
    secret := Collection.secrets
    configMap := Collection.configmaps }

/-- A cached object of some kind (payloads kept abstract as the key
they were stored under). -/
inductive KObject where
  | service (payload : String)
  | secret (payload : String)
  | other (payload : String)
deriving DecidableEq, Repr

/-- Result of `ServiceLister.ByKey`: the Go `item.(*apiv1.Service)`
type assertion panics when the cached object is not a Service. -/
inductive SvcLookup where
  | ok (payload : String)
  | notFound (key : String)
  | panicTypeAssertion
deriving DecidableEq, Repr

/-- `ServiceLister.ByKey` (service handler file, lines 20-29) over a
cache modelled as a partial map from keys to stored objects. -/
def serviceByKey (cache : String → Option KObject) (key : String) : SvcLookup :=
  match cache key with
  | none => SvcLookup.notFound key
  | some (KObject.service p) => SvcLookup.ok p
  | some _ => SvcLookup.panicTypeAssertion

/-! ## Reconciler shutdown (`BfeController.Stop`, controller file lines
122-140) -/

/-- The externally observable effects of `BfeController.Stop`, in
program order. -/
inductive StopStep where
  | setShuttingDownFlag
  | closeStopCh
  | spawnQueueShutdown
  | queueShutdownJoined
  | signalDataPlane
  | waitProcessExit
deriving DecidableEq, Repr

/-- `BfeController.Stop` (controller file, lines 122-140).
`queueAlreadyShuttingDown` is the value of `syncQueue.IsShuttingDown()`;
`signalErr` is the result of `Process.Signal(SIGTERM)` (`some e` =
failure).  Returns the effect trace and the returned error, if any. -/
def bfeControllerStop (queueAlreadyShuttingDown : Bool)
    (signalErr : Option String) : List StopStep × Option String :=
  if queueAlreadyShuttingDown then
    ([StopStep.setShuttingDownFlag], some "shutdown already in progress")
  else
    match signalErr with
    | some e =>
      ([StopStep.setShuttingDownFlag, StopStep.closeStopCh,
        StopStep.spawnQueueShutdown, StopStep.signalDataPlane], some e)
    | none =>
      ([StopStep.setShuttingDownFlag, StopStep.closeStopCh,
        StopStep.spawnQueueShutdown, StopStep.signalDataPlane,
        StopStep.waitProcessExit], none)

/-! ## Certificate store (internal/store/localcert.go) -/

/-- One parsed certificate extension: `isSAN` marks
`oidExtensionSubjectAltName`; `value` its raw bytes. -/
structure CertExt where
  isSAN : Bool
  value : String
deriving DecidableEq, Repr

/-- The slice of a parsed `x509.Certificate` the embedded code reads. -/
structure CertData where
  subjectCommonName : String
  dnsNames : List String
  extensions : List CertExt
  raw : String
  notAfter : Int
deriving DecidableEq, Repr

/-- `SSLCert` (localcert.go lines 63-102).  Byte strings and hashes are
`String`; `ExpireTime` is an epoch timestamp; the parsed
`Certificate` pointer is `Option CertData`. -/
structure SSLCert where
  name : String
  namespacee : String
  certificate : Option CertData
  caFileName : String
  casha : String
  crlFileName : String
  crlsha : String
  pemFileName : String
  pemsha : String
  cn : List String
  expireTime : Int
  pemCertKey : String
  uid : String
deriving DecidableEq, Repr

/-- Modelled from the spec: the `StringElementsMatch` helper called by
`SSLCert.Equal` is missing from the source tree; §3 describes common
names as a set compared order-independently, so two lists match iff
they contain the same elements. -/
def StringElementsMatch (a b : List String) : Bool :=
  a.all (fun x => b.contains x) && b.all (fun x => a.contains x)

/-- `SSLCert.Equal` (localcert.go lines 115-139).  The receiver and the
argument are `*SSLCert` pointers, modelled as `Option SSLCert`; the
leading `s == s2` pointer comparison yields `true` for two nil
pointers, and for a pointer compared with itself, where the fieldwise
path returns `true` as well. -/
def SSLCert.Equal (s s2 : Option SSLCert) : Bool :=
  match s, s2 with
  | none, none => true
  | none, some _ => false
  | some _, none => false
  | some a, some b =>
    if a.casha ≠ b.casha then false
    else if a.pemsha ≠ b.pemsha then false
    else if a.expireTime ≠ b.expireTime then false
    else if a.pemCertKey ≠ b.pemCertKey then false
    else if a.uid ≠ b.uid then false
    else StringElementsMatch a.cn b.cn

/-- The external crypto/encoding primitives `CreateSSLCert` calls
(`pem.Decode`, `x509.ParseCertificate`, `tls.X509KeyPair`,
`parseSANExtension`, `sha1`), kept abstract: any implementation of
this interface yields the same control flow. -/
structure PemBlock where
  type : String
  bytes : String
deriving DecidableEq, Repr

structure CryptoEnv where
  pemDecode : String → Option PemBlock
  parseCertificate : String → Option CertData
  x509KeyPairOk : String → String → Bool
  parseSAN : String → Option (List String)
  sha1Hex : String → String

/-- `sets.String` insertion: add unless already present. -/
def insertIfAbsent (l : List String) (x : String) : List String :=
  if x ∈ l then l else l ++ [x]

/-- The common-name set built by `CreateSSLCert` (localcert.go lines
177-199): the subject common name, then each DNS name, then each DNS
alternative of every subject-alternative-name extension whose parse
succeeds; parse failures are logged and skipped. -/
def buildCN (env : CryptoEnv) (c : CertData) : List String :=
  let cn0 := [c.subjectCommonName]
  let cn1 := c.dnsNames.foldl insertIfAbsent cn0
  if c.extensions.length > 0 then
    (c.extensions.filter (fun e => e.isSAN)).foldl
      (fun acc ext =>
        match env.parseSAN ext.value with
        | none => acc
        | some dnss => dnss.foldl insertIfAbsent acc)
      cn1
  else cn1

/-- `CreateSSLCert` (localcert.go lines 142-212) with
`EnableSSLChainCompletion` at its default `false`, so the PEM buffer is
the certificate bytes, a newline, then the key bytes.  Errors carry the
Go error messages; the common-name set is returned in insertion order
(the Go `cn.List()` sorts it — no claim observes the order). -/
def CreateSSLCert (env : CryptoEnv) (cert key uid : String) :
    Except String SSLCert :=
  let pemCertBuffer := cert ++ "\n" ++ key
  match env.pemDecode pemCertBuffer with
  | none => Except.error "no valid PEM formatted block found"
  | some pemBlock =>
    if pemBlock.type ≠ "CERTIFICATE" then
      Except.error "no certificate PEM data found"
    else
      match env.parseCertificate pemBlock.bytes with
      | none => Except.error "certificate parse error"
      | some pemCert =>
        if ¬ env.x509KeyPairOk cert key then
          Except.error "certificate and private key does not have a matching public key"
        else
          Except.ok
            { name := ""
              namespacee := ""
              certificate := some pemCert
              caFileName := ""
              casha := ""
              crlFileName := ""
              crlsha := ""
              pemFileName := ""
              pemsha := env.sha1Hex pemCert.raw
              cn := buildCN env pemCert
              expireTime := pemCert.notAfter
              pemCertKey := pemCertBuffer
              uid := uid }

/-- Modelled from the spec: the `syncSecret` routine that stores the
record produced by `CreateSSLCert` is missing from the source tree; §4.2
says a failed update "leaves the prior record (if any) untouched", so
the stored record is replaced only on success. -/
def certStoreUpdate (prior : Option SSLCert) (result : Except String SSLCert) :
    Option SSLCert :=
  match result with
  | Except.ok c => some c
  | Except.error _ => prior

/-! ## Concrete fixtures used by witnesses and counterexamples -/

/-- A route whose class annotation is `"other"`. -/
def otherAnnotIng : Ingress :=
  { namespacee := "default"
    name := "app"
    annotations := [(IngressKey, "other")]
    specTLS := []
    specIngressClassName := none }

/-- A route with no class annotation. -/
def noAnnotIng : Ingress :=
  { namespacee := "default"
    name := "app"
    annotations := []
    specTLS := []
    specIngressClassName := none }

/-- A route whose class annotation is the empty string. -/
def emptyAnnotIng : Ingress :=
  { namespacee := "default"
    name := "app"
    annotations := [(IngressKey, "")]
    specTLS := []
    specIngressClassName := none }

/-- A member route declaring one TLS secret. -/
def curIngC5 : Ingress :=
  { namespacee := "default"
    name := "app"
    annotations := [(IngressKey, "bfe")]
    specTLS := [{ secretName := "tls-secret" }]
    specIngressClassName := none }

/-- A configuration on a class-resource-capable platform with a
configured `IngressClass` object. -/
def readyCfg : ClassConfig :=
  { ingressClassName := "bfe"
    defaultClassName := "bfe"
    isIngressV1Ready := true
    ingressClass := some "bfe" }

theorem list_all_contains_self (l : List String) :
    l.all (fun x => l.contains x) = true := by
  rw [List.all_eq_true]
  intro x hx
  exact List.elem_eq_true_of_mem hx

theorem stringElementsMatch_refl (l : List String) :
    StringElementsMatch l l = true := by
  simp [StringElementsMatch, list_all_contains_self]

theorem stringElementsMatch_comm (a b : List String) :
    StringElementsMatch a b = StringElementsMatch b a :=
  Bool.and_comm _ _

theorem stringElementsMatch_iff {a b : List String} :
    StringElementsMatch a b = true ↔ (∀ x, x ∈ a ↔ x ∈ b) := by
  simp only [StringElementsMatch, Bool.and_eq_true, List.all_eq_true]
  constructor
  · rintro ⟨h1, h2⟩ x
    constructor
    · intro hx
      simpa [List.contains, List.elem_iff] using h1 x hx
    · intro hx
      simpa [List.contains, List.elem_iff] using h2 x hx
  · intro h
    constructor
    · intro x hx
      exact List.elem_eq_true_of_mem ((h x).mp hx)
    · intro x hx
      exact List.elem_eq_true_of_mem ((h x).mpr hx)

/-! ## Claim theorems -/

/-- C1: for every dequeue performed by the Event Queue worker, the task
is dropped without invoking the sync action iff its timestamp is
strictly less than `lastSync` at that moment; otherwise the sync action
is invoked exactly once for that dequeue, and on success `lastSync`
advances to the dequeue time `ts`. -/
theorem C1_queue_skip_policy (st : QueueState) (item : Element)
    (ts tsRequeue : Int) (r : SyncResult) :
    ((workerStep st item ts tsRequeue r).2.1 = [] ↔
      item.timestamp < st.lastSync) ∧
    (¬ item.timestamp < st.lastSync →
      (workerStep st item ts tsRequeue r).2.1 = [item] ∧
      (r = SyncResult.ok →
        (workerStep st item ts tsRequeue r).1.lastSync = ts)) := by
  unfold workerStep
  by_cases h : st.lastSync > item.timestamp
  · rw [if_pos h]
    exact ⟨⟨fun _ => h, fun _ => rfl⟩, fun hc => absurd h hc⟩
  · rw [if_neg h]
    cases r
    · exact ⟨⟨fun hl => by simp at hl, fun hlt => absurd hlt h⟩,
        fun _ => ⟨rfl, fun _ => rfl⟩⟩
    · exact ⟨⟨fun hl => by simp at hl, fun hlt => absurd hlt h⟩,
        fun _ => ⟨rfl, fun hok => by simp at hok⟩⟩

theorem C1_queue_skip_policy_witness :
    ¬ ((7 : Int) < 0) ∧
    (workerStep ⟨0⟩ ⟨"a", 7, true⟩ 10 11 SyncResult.ok).2.1 =
      [⟨"a", 7, true⟩] ∧
    (workerStep ⟨0⟩ ⟨"a", 7, true⟩ 10 11 SyncResult.ok).1.lastSync = 10 := by
  have h := C1_queue_skip_policy ⟨0⟩ ⟨"a", 7, true⟩ 10 11 SyncResult.ok
  have hlt : ¬ ((⟨"a", 7, true⟩ : Element).timestamp < (⟨0⟩ : QueueState).lastSync) := by
    decide
  exact ⟨hlt, (h.2 hlt).1, (h.2 hlt).2 rfl⟩

/-- C2: at the `updateSecretIngressMap` call site (Delete of the route
key, then Insert of its declared secret targets), the new `Reference`
results exclude the route for every previously declared target no
longer declared, include it for every currently declared target, a
`Delete` removes the route from every `Reference` result, and the
inverse map remains the exact transpose of the forward map. -/
theorem C2_reference_index_replacement (m : ObjectRefMap) (ing : Ingress)
    (S1 : List String) (t : String) :
    (t ∈ S1 → t ∉ declaredSecrets ing →
      ing.key ∉ (updateSecretIngressMap m ing).Reference t) ∧
    (t ∈ declaredSecrets ing →
      ing.key ∈ (updateSecretIngressMap m ing).Reference t) ∧
    (ing.key ∉ (m.Delete ing.key).Reference t) ∧
    (m.Transposed → (updateSecretIngressMap m ing).Transposed) := by
  refine ⟨?_, ?_, not_mem_reference_delete _ _, ?_⟩
  · intro _ hnot hmem
    rcases mem_reference_insert.mp hmem with ⟨_, hin⟩ | ⟨_, hne⟩
    · exact hnot hin
    · exact hne rfl
  · intro hin
    exact mem_reference_insert.mpr (Or.inl ⟨rfl, hin⟩)
  · intro h
    exact transposed_insert (transposed_delete h _) _ _

theorem C2_reference_index_replacement_witness :
    ("default/old-secret" : String) ∈ ["default/old-secret"] ∧
    "default/old-secret" ∉ declaredSecrets curIngC5 ∧
    curIngC5.key ∉
      (updateSecretIngressMap NewObjectRefMap curIngC5).Reference
        "default/old-secret" ∧
    curIngC5.key ∈
      (updateSecretIngressMap NewObjectRefMap curIngC5).Reference
        "default/tls-secret" := by
  have h1 := C2_reference_index_replacement NewObjectRefMap curIngC5
    ["default/old-secret"] "default/old-secret"
  have h2 := C2_reference_index_replacement NewObjectRefMap curIngC5
    ["default/old-secret"] "default/tls-secret"
  refine ⟨by decide, by decide, h1.1 (by decide) (by decide), h2.2.1 (by decide)⟩

/-- C3: the claim says the worker closes `workerDone` on dequeueing the
shutdown signal so that `Shutdown`, blocked on `workerDone`, returns.
In the code `isClosed` returns `true` in its `default` branch as well,
so the worker's quit path never closes the channel and the receive in
`Shutdown` never unblocks: evaluated at the failing input (the channel
still open when the quit signal is dequeued). -/
theorem C3_shutdown_never_acked :
    isClosed false = true ∧
    workerOnQuit false = false ∧
    shutdownUnblocks (workerOnQuit false) = false := by
  decide

/-- C4: the claim says the service cache mirrors the service
collection.  In `NewStore` the service informer is built from the
secrets collection (store.go line 261), so the cache the service lister
reads holds Secrets: a stored secret makes `GetService` hit the failing
`*corev1.Service` type assertion, evaluated here at the failing key. -/
theorem C4_service_cache_mirrors_secrets :
    newStoreWiring.service = Collection.secrets ∧
    newStoreWiring.service ≠ Collection.services ∧
    serviceByKey
      (fun k => if k = "default/tls-secret"
                then some (KObject.secret "default/tls-secret") else none)
      "default/tls-secret" = SvcLookup.panicTypeAssertion ∧
    serviceByKey (fun _ => none) "default/app-svc" =
      SvcLookup.notFound "default/app-svc" := by
  refine ⟨rfl, by decide, by decide, rfl⟩

/-- The hit of a route's `ReferencedBy` right after its references were
recomputed: exactly its declared secrets. -/
theorem referencedBy_updateSecretIngressMap (m : ObjectRefMap) (ing : Ingress) :
    (updateSecretIngressMap m ing).ReferencedBy ing.key = declaredSecrets ing := by
  rw [updateSecretIngressMap, ObjectRefMap.ReferencedBy, insert_forward_eq]
  simp

/-- The channel events of a handler result. -/
def emittedOf (r : Option (ObjectRefMap × List HandlerAction)) :
    List HandlerAction :=
  (r.elim [] Prod.snd).filter (fun a =>
    match a with
    | HandlerAction.emit _ => true
    | _ => false)

/-- C5 counterexample: for a not-member→member route update the handler
does record a CREATE audit event, but the event it sends on the update
channel has type `Update`, not `Create` (ingress handler file, lines
120-123): at this concrete transition the emitted events are exactly
`[emit update]`. -/
theorem C5_counterexample :
    IsValid defaultClassConfig otherAnnotIng = some false ∧
    IsValid defaultClassConfig curIngC5 = some true ∧
    emittedOf (ingressOnUpdate defaultClassConfig NewObjectRefMap
      otherAnnotIng curIngC5) = [HandlerAction.emit EventType.update] := by
  refine ⟨rfl, rfl, by decide⟩

/-- C5 (amended): for every route update whose old object is not a
class member and whose current object is, the handler records a CREATE
audit event, recomputes the route's declared secret references into the
Reference Index, triggers certificate resync for each referenced
secret, and emits an `Update` event (not `Create`). -/
theorem C5_update_treated_as_add (cfg : ClassConfig) (m : ObjectRefMap)
    (old cur : Ingress)
    (hOld : IsValid cfg old = some false)
    (hCur : IsValid cfg cur = some true) :
    ingressOnUpdate cfg m old cur =
      some (updateSecretIngressMap m cur,
        [HandlerAction.audit "CREATE"]
          ++ (declaredSecrets cur).map HandlerAction.syncSecret
          ++ [HandlerAction.emit EventType.update]) ∧
    (∀ t, cur.key ∈ (updateSecretIngressMap m cur).Reference t ↔
      t ∈ declaredSecrets cur) := by
  constructor
  · rw [ingressOnUpdate, hOld, hCur]
    simp only [Bool.false_eq_true, not_false_iff, and_self, if_pos,
      Bool.true_eq_false, syncSecretsActions,
      referencedBy_updateSecretIngressMap]
  · intro t
    rw [show updateSecretIngressMap m cur =
          (m.Delete cur.key).Insert cur.key (declaredSecrets cur) from rfl]
    rw [mem_reference_insert]
    simp

theorem C5_update_treated_as_add_witness :
    ingressOnUpdate defaultClassConfig NewObjectRefMap otherAnnotIng curIngC5 =
      some (updateSecretIngressMap NewObjectRefMap curIngC5,
        [HandlerAction.audit "CREATE",
         HandlerAction.syncSecret "default/tls-secret",
         HandlerAction.emit EventType.update]) ∧
    (curIngC5.key ∈ (updateSecretIngressMap NewObjectRefMap curIngC5).Reference
        "default/tls-secret" ↔
      "default/tls-secret" ∈ declaredSecrets curIngC5) := by
  have h := C5_update_treated_as_add defaultClassConfig NewObjectRefMap
    otherAnnotIng curIngC5 rfl rfl
  refine ⟨?_, h.2 "default/tls-secret"⟩
  rw [h.1]
  rfl

/-- C6: for a route carrying the class annotation, membership holds iff
the annotation equals the configured class or the annotation is empty
and the configured class is the default class name; for a route with no
annotation on a platform without class-resource support, membership
holds iff the configured class equals the default class name; and the
three concrete cases of the spec evaluate as claimed under the package
defaults. -/
theorem C6_class_membership :
    (∀ (cfg : ClassConfig) (ing : Ingress) (a : String),
      Ingress.getAnnot ing IngressKey = some a →
      (IsValid cfg ing = some true ↔
        (a = cfg.ingressClassName ∨
         (a = "" ∧ cfg.ingressClassName = cfg.defaultClassName)))) ∧
    (∀ (cfg : ClassConfig) (ing : Ingress),
      Ingress.getAnnot ing IngressKey = none →
      cfg.isIngressV1Ready = false →
      (IsValid cfg ing = some true ↔
        cfg.ingressClassName = cfg.defaultClassName)) ∧
    IsValid defaultClassConfig noAnnotIng = some true ∧
    IsValid defaultClassConfig otherAnnotIng = some false ∧
    IsValid defaultClassConfig emptyAnnotIng = some true := by
  refine ⟨?_, ?_, rfl, rfl, rfl⟩
  · intro cfg ing a ha
    simp only [IsValid, ha]
    by_cases hc : a = "" ∧ cfg.ingressClassName = cfg.defaultClassName
    · rw [if_pos hc]
      exact ⟨fun _ => Or.inr hc, fun _ => rfl⟩
    · rw [if_neg hc]
      constructor
      · intro h
        have := Option.some_inj.mp h
        exact Or.inl (of_decide_eq_true this)
      · rintro (h | h)
        · rw [decide_eq_true h]
        · exact absurd h hc
  · intro cfg ing ha hr
    simp only [IsValid, ha, hr]
    simp only [Bool.false_eq_true, not_false_iff, if_pos]
    constructor
    · intro h
      exact of_decide_eq_true (Option.some_inj.mp h)
    · intro h
      rw [decide_eq_true h]

theorem C6_class_membership_witness :
    Ingress.getAnnot curIngC5 IngressKey = some "bfe" ∧
    IsValid defaultClassConfig curIngC5 = some true ∧
    Ingress.getAnnot noAnnotIng IngressKey = none ∧
    defaultClassConfig.isIngressV1Ready = false ∧
    IsValid defaultClassConfig noAnnotIng = some true :=
  ⟨rfl,
   (C6_class_membership.1 defaultClassConfig curIngC5 "bfe" rfl).mpr
     (Or.inl rfl),
   rfl, rfl,
   (C6_class_membership.2.1 defaultClassConfig noAnnotIng rfl rfl).mpr rfl⟩

/-- C7: with chain completion disabled, `CreateSSLCert` returns an
error iff the combined PEM buffer has no valid PEM block, the first
block is not of type CERTIFICATE, the certificate bytes fail to parse,
or the certificate and key do not match; and in every error case no
record is produced, so the prior stored record is retained. -/
theorem C7_create_ssl_cert_errors (env : CryptoEnv) (cert key uid : String) :
    ((∃ e, CreateSSLCert env cert key uid = Except.error e) ↔
      (env.pemDecode (cert ++ "\n" ++ key) = none ∨
       (∃ b, env.pemDecode (cert ++ "\n" ++ key) = some b ∧
         (b.type ≠ "CERTIFICATE" ∨ env.parseCertificate b.bytes = none)) ∨
       env.x509KeyPairOk cert key = false)) ∧
    (∀ (prior : Option SSLCert) (e : String),
      CreateSSLCert env cert key uid = Except.error e →
      certStoreUpdate prior (CreateSSLCert env cert key uid) = prior) := by
  constructor
  · cases hdec : env.pemDecode (cert ++ "\n" ++ key) with
    | none =>
      simp [CreateSSLCert, hdec]
    | some b =>
      by_cases htype : b.type = "CERTIFICATE"
      · cases hparse : env.parseCertificate b.bytes with
        | none =>
          simp only [CreateSSLCert, hdec, htype, if_neg, not_true,
            not_false_iff, hparse]
          constructor
          · intro _
            exact Or.inr (Or.inl ⟨b, by simp [hdec], Or.inr hparse⟩)
          · intro _
            exact ⟨"certificate parse error", by simp [htype]⟩
        | some c =>
          by_cases hkp : env.x509KeyPairOk cert key
          · simp only [CreateSSLCert, hdec, htype, hparse, hkp]
            constructor
            · rintro ⟨e, he⟩
              simp [htype, hkp] at he
            · rintro (h | ⟨b2, hb2, hb3⟩ | h)
              · exact absurd h (by simp)
              · cases Option.some_inj.mp hb2
                rcases hb3 with h3 | h3
                · exact absurd htype h3
                · rw [hparse] at h3
                  exact absurd h3 (by simp)
              · exact absurd h (by simp)
          · simp only [CreateSSLCert, hdec, htype, hparse]
            constructor
            · intro _
              exact Or.inr (Or.inr (by simpa using hkp))
            · intro _
              refine ⟨"certificate and private key does not have a matching public key", ?_⟩
              simp [htype, hkp]
      · simp only [CreateSSLCert, hdec]
        constructor
        · intro _
          exact Or.inr (Or.inl ⟨b, by simp [hdec], Or.inl htype⟩)
        · intro _
          exact ⟨"no certificate PEM data found", by simp [htype]⟩
  · intro prior e he
    rw [he]
    rfl

/-- An environment whose PEM decoder finds no block. -/
def failEnv : CryptoEnv :=
  { pemDecode := fun _ => none
    parseCertificate := fun _ => none
    x509KeyPairOk := fun _ _ => false
    parseSAN := fun _ => none
    sha1Hex := fun _ => "" }

/-- A previously stored certificate record. -/
def priorCert : SSLCert :=
  { name := "tls-secret"
    namespacee := "default"
    certificate := none
    caFileName := ""
    casha := ""
    crlFileName := ""
    crlsha := ""
    pemFileName := "/etc/ingress-controller/ssl/default-tls-secret.pem"
    pemsha := "oldhash"
    cn := ["a.example.com", "www.example.com"]
    expireTime := 100
    pemCertKey := "OLDPEM"
    uid := "uid-1" }

theorem C7_create_ssl_cert_errors_witness :
    certStoreUpdate (some priorCert) (CreateSSLCert failEnv "CERT" "KEY" "u") =
      some priorCert :=
  (C7_create_ssl_cert_errors failEnv "CERT" "KEY" "u").2 (some priorCert)
    "no valid PEM formatted block found" rfl

/-- A certificate record fixture. -/
def certA : SSLCert :=
  { name := "tls-secret"
    namespacee := "default"
    certificate := none
    caFileName := ""
    casha := "cahash"
    crlFileName := ""
    crlsha := ""
    pemFileName := "/etc/ingress-controller/ssl/default-tls-secret.pem"
    pemsha := "pemhash"
    cn := ["a.example.com", "www.example.com"]
    expireTime := 100
    pemCertKey := "PEMDATA"
    uid := "uid-1" }

/-- Same persisted identity, hashes and expiry as `certA`, different
common-name set. -/
def certB : SSLCert :=
  { certA with cn := ["b.example.com"] }

/-- Same semantically meaningful fields as `certA` (common names in a
different order), different derived ephemeral fields. -/
def certD : SSLCert :=
  { certA with
      name := "renamed"
      namespacee := "other-ns"
      caFileName := "/tmp/ca.pem"
      crlFileName := "/tmp/crl.pem"
      crlsha := "crlhash"
      pemFileName := "/tmp/other.pem"
      cn := ["www.example.com", "a.example.com"] }

theorem decide_eq_comm {α : Type} [DecidableEq α] (x y : α) :
    decide (x = y) = decide (y = x) := by
  simp [eq_comm]

theorem sslcert_equal_some (a b : SSLCert) :
    SSLCert.Equal (some a) (some b) =
      (decide (a.casha = b.casha) && decide (a.pemsha = b.pemsha) &&
       decide (a.expireTime = b.expireTime) &&
       decide (a.pemCertKey = b.pemCertKey) && decide (a.uid = b.uid) &&
       StringElementsMatch a.cn b.cn) := by
  by_cases h1 : a.casha = b.casha <;>
    by_cases h2 : a.pemsha = b.pemsha <;>
      by_cases h3 : a.expireTime = b.expireTime <;>
        by_cases h4 : a.pemCertKey = b.pemCertKey <;>
          by_cases h5 : a.uid = b.uid <;>
            simp [SSLCert.Equal, h1, h2, h3, h4, h5]

/-- C8 counterexample: two records with identical persisted identity
(`UID`, `PemCertKey`, even `Name`/`Namespace`), chain hash, cert hash
and expiry but different common-name sets — `Equal` returns `false`,
so agreement on those four attributes alone does not make it true. -/
theorem C8_counterexample :
    certA.uid = certB.uid ∧ certA.pemCertKey = certB.pemCertKey ∧
    certA.casha = certB.casha ∧ certA.pemsha = certB.pemsha ∧
    certA.expireTime = certB.expireTime ∧ certA.name = certB.name ∧
    certA.namespacee = certB.namespacee ∧
    SSLCert.Equal (some certA) (some certB) = false := by
  refine ⟨rfl, rfl, rfl, rfl, rfl, rfl, rfl, by decide⟩

/-- C8 (amended): `Equal` is reflexive and symmetric; it returns
`false` for every pair whose common-name sets differ, regardless of
element order; and it returns `true` for every pair with identical
persisted identity, chain hash, cert hash, expiry AND equal common-name
sets, even when the derived ephemeral fields differ. -/
theorem C8_sslcert_equal :
    (∀ s : Option SSLCert, SSLCert.Equal s s = true) ∧
    (∀ s t : Option SSLCert, SSLCert.Equal s t = SSLCert.Equal t s) ∧
    (∀ a b : SSLCert,
      (∃ x, (x ∈ a.cn ∧ x ∉ b.cn) ∨ (x ∈ b.cn ∧ x ∉ a.cn)) →
      SSLCert.Equal (some a) (some b) = false) ∧
    (∀ a b : SSLCert, a.casha = b.casha → a.pemsha = b.pemsha →
      a.expireTime = b.expireTime → a.pemCertKey = b.pemCertKey →
      a.uid = b.uid → (∀ x, x ∈ a.cn ↔ x ∈ b.cn) →
      SSLCert.Equal (some a) (some b) = true) := by
  refine ⟨?_, ?_, ?_, ?_⟩
  · intro s
    cases s with
    | none => rfl
    | some a =>
      rw [sslcert_equal_some]
      simp [stringElementsMatch_refl]
  · intro s t
    cases s with
    | none =>
      cases t with
      | none => rfl
      | some b => rfl
    | some a =>
      cases t with
      | none => rfl
      | some b =>
        rw [sslcert_equal_some, sslcert_equal_some,
          stringElementsMatch_comm,
          decide_eq_comm a.casha, decide_eq_comm a.pemsha,
          decide_eq_comm a.expireTime, decide_eq_comm a.pemCertKey,
          decide_eq_comm a.uid]
  · intro a b hx
    cases he : SSLCert.Equal (some a) (some b) with
    | false => rfl
    | true =>
      exfalso
      rw [sslcert_equal_some] at he
      simp only [Bool.and_eq_true] at he
      have hsem := stringElementsMatch_iff.mp he.2
      rcases hx with ⟨x, ⟨hin, hnot⟩ | ⟨hin, hnot⟩⟩
      · exact hnot ((hsem x).mp hin)
      · exact hnot ((hsem x).mpr hin)
  · intro a b h1 h2 h3 h4 h5 hcn
    rw [sslcert_equal_some, h1, h2, h3, h4, h5,
      stringElementsMatch_iff.mpr hcn]
    simp

theorem C8_sslcert_equal_witness :
    certA.casha = certD.casha ∧ certA.pemsha = certD.pemsha ∧
    certA.expireTime = certD.expireTime ∧
    certA.pemCertKey = certD.pemCertKey ∧ certA.uid = certD.uid ∧
    certA.name ≠ certD.name ∧ certA.pemFileName ≠ certD.pemFileName ∧
    certA.cn ≠ certD.cn ∧
    SSLCert.Equal (some certA) (some certD) = true := by
  refine ⟨rfl, rfl, rfl, rfl, rfl, by decide, by decide, by decide, ?_⟩
  exact C8_sslcert_equal.2.2.2 certA certD rfl rfl rfl rfl rfl
    (stringElementsMatch_iff.mp (by decide))

/-- C9 counterexample: in the trace of `BfeController.Stop` invoked
while not already shutting down, the termination signal is sent but no
queue-shutdown join ever occurs (the queue shutdown is launched in a
fire-and-forget goroutine), so the Event Queue is not joined before the
signal. -/
theorem C9_counterexample :
    StopStep.signalDataPlane ∈ (bfeControllerStop false none).1 ∧
    StopStep.queueShutdownJoined ∉ (bfeControllerStop false none).1 := by
  decide

/-- C9 (amended): when `Stop` is called while not already shutting
down, it sets the shutting-down flag, closes the stop channel and
spawns the Event Queue shutdown asynchronously — without joining it —
before sending the graceful-termination signal; the process exit is
awaited synchronously exactly when the signal send succeeds, and a
signal-send failure is returned to the caller. -/
theorem C9_stop_ordering (sigErr : Option String) :
    (bfeControllerStop false sigErr).1 =
      [StopStep.setShuttingDownFlag, StopStep.closeStopCh,
       StopStep.spawnQueueShutdown, StopStep.signalDataPlane]
        ++ (if sigErr = none then [StopStep.waitProcessExit] else []) ∧
    (bfeControllerStop false sigErr).2 = sigErr ∧
    StopStep.queueShutdownJoined ∉ (bfeControllerStop false sigErr).1 := by
  cases sigErr with
  | none => exact ⟨rfl, rfl, by simp [bfeControllerStop]⟩
  | some e => exact ⟨rfl, rfl, by simp [bfeControllerStop]⟩

/-- C10: the claim says `IsValid` is total.  On a route without the
class annotation and with nil `Spec.IngressClassName`, under a
configuration with `IsIngressV1Ready` true and a non-nil `IngressClass`,
the code dereferences the nil pointer and panics (modelled `none`):
evaluated here at that failing input. -/
theorem C10_isvalid_nil_deref :
    Ingress.getAnnot noAnnotIng IngressKey = none ∧
    readyCfg.isIngressV1Ready = true ∧
    readyCfg.ingressClass = some "bfe" ∧
    noAnnotIng.specIngressClassName = none ∧
    IsValid readyCfg noAnnotIng = none := by
  refine ⟨rfl, rfl, rfl, rfl, rfl⟩

end IngressBfe
